import Mathlib

/-!
Verification of the route-generation core and helpers of the
Comment_Sentiment repository (src/streamlit_app_matv1.py and
src/streamlit_app.py) against its natural-language specification.

Node identifiers are modelled as `Nat`, edge lengths and distances as `ℚ`
(the code works with Python floats; the claims are about order comparisons
and sums, not rounding). The networkx multigraph is modelled as a node list
plus an edge list, with parallel-edge key order given by edge-list order
(networkx assigns keys 0, 1, ... in insertion order). `random.choice` is
modelled by an arbitrary index function `mids : Nat → Nat`, one index per
sampling attempt; the claims are quantified over all such functions.
-/

/-- A networkx undirected multigraph as used by `generate_alternative_routes`:
`nodes` is `list(G.nodes)`, `edges` holds `(u, v, length)` triples in
insertion order (which determines the multigraph keys `0, 1, ...`). -/
structure MGraph where
  nodes : List Nat
  edges : List (Nat × Nat × ℚ)

/-- The parallel edges between `u` and `v`, in key order: the lengths of all
edges of the multigraph joining `u` and `v` (either orientation of the
undirected edge), so `G[u][v][0]['length']` is the head of this list, and a
`KeyError` corresponds to this list being empty. -/
def edgesBetween (G : MGraph) (u v : Nat) : List ℚ :=
  G.edges.filterMap fun t =>
    if (t.1 = u ∧ t.2.1 = v) ∨ (t.1 = v ∧ t.2.1 = u) then some t.2.2 else none

/-- `u` and `v` are joined by at least one edge of the graph. -/
def adjacentIn (G : MGraph) (u v : Nat) : Prop :=
  edgesBetween G u v ≠ []

instance (G : MGraph) (u v : Nat) : Decidable (adjacentIn G u v) := by
  unfold adjacentIn; infer_instance

/-- The neighbors of `u`: every node joined to `u` by some edge, in first
appearance order. -/
def neighbors (G : MGraph) (u : Nat) : List Nat :=
  (G.edges.filterMap fun t =>
    if t.1 = u then some t.2.1 else if t.2.1 = u then some t.1 else none).dedup

/-- The weight networkx's Dijkstra uses for a multigraph step `u-v` with
`weight='length'`: the minimum length over the parallel edges between `u`
and `v` (0 as an unused default for non-adjacent pairs). -/
def minEdge (G : MGraph) (u v : Nat) : ℚ :=
  match edgesBetween G u v with
  | [] => 0
  | l :: ls => ls.foldl min l

/-- Dijkstra weight of a path: sum over consecutive pairs of the
minimum-length parallel edge. -/
def pathWeight (G : MGraph) (p : List Nat) : ℚ :=
  ((p.zip p.tail).map fun uv => minEdge G uv.1 uv.2).sum

/-- All simple paths of the graph that start at `u` and avoid `visited`
after the first node, bounded by `fuel` extension steps. Every returned
list starts with `u`. -/
def pathsAux (G : MGraph) : Nat → Nat → List Nat → List (List Nat)
  | 0, u, _ => [[u]]
  | fuel + 1, u, visited =>
    [[u]] ++ ((neighbors G u).filter fun w => !(visited.contains w)).flatMap
      fun w => (pathsAux G fuel w (w :: visited)).map fun p => u :: p

/-- First minimum of a list of candidate paths under weight `w`. -/
def pickMin (w : List Nat → ℚ) : List (List Nat) → Option (List Nat)
  | [] => none
  | p :: ps => some (ps.foldl (fun best q => if w q < w best then q else best) p)

/-- Outcome of `nx.shortest_path(G, u, v, weight='length')`: the library
raises `NodeNotFound` when either endpoint is absent from the graph (an
exception the caller's `except (nx.NetworkXNoPath, KeyError)` clause does
not catch), raises `NetworkXNoPath` when no path connects them, and
otherwise returns a minimum-weight path. -/
inductive SPResult where
  | nodeNotFound : SPResult
  | noPath : SPResult
  | path : List Nat → SPResult

/-- Model of `nx.shortest_path(G, u, v, weight='length')`: among the simple
paths from `u` to `v`, a path of minimum weight (weights resolve parallel
edges to the minimum length, as networkx's Dijkstra does). -/
def sp (G : MGraph) (u v : Nat) : SPResult :=
  if u ∈ G.nodes ∧ v ∈ G.nodes then
    match pickMin (pathWeight G)
        ((pathsAux G G.nodes.length u [u]).filter fun p => p.getLast? == some v) with
    | none => SPResult.noPath
    | some p => SPResult.path p
  else SPResult.nodeNotFound

/-- The total length the code computes for a candidate route (line 51):
`sum(G[u][v][0]['length'] for u, v in zip(route[:-1], route[1:]))`. Each
consecutive pair is resolved to the parallel edge with key 0, i.e. the
head of `edgesBetween`; `none` models the `KeyError` raised when some
consecutive pair has no edge. -/
def routeLength (G : MGraph) (r : List Nat) : Option ℚ :=
  if (r.zip r.tail).all fun uv => !(edgesBetween G uv.1 uv.2).isEmpty then
    some (((r.zip r.tail).map fun uv => (edgesBetween G uv.1 uv.2).headD 0).sum)
  else none

/-- Follows the spec's words, for comparison with `routeLength`: the total
length of a route when each consecutive pair is resolved to the
minimum-length edge among the parallel edges between that pair. -/
def minRouteLengthSpec (G : MGraph) (r : List Nat) : Option ℚ :=
  if (r.zip r.tail).all fun uv => !(edgesBetween G uv.1 uv.2).isEmpty then
    some (((r.zip r.tail).map fun uv => minEdge G uv.1 uv.2).sum)
  else none

/-- Exceptions `generate_alternative_routes` can propagate: `IndexError`
from `random.choice` on an empty node list, and networkx's `NodeNotFound`,
which the `except (nx.NetworkXNoPath, KeyError)` clause does not catch. -/
inductive GenErr where
  | nodeNotFound : GenErr
  | indexError : GenErr

/-- Outcome of one sampling attempt for a chosen `mid`. -/
inductive AttemptRes where
  | err : AttemptRes
  | skip : AttemptRes
  | route : List Nat → ℚ → AttemptRes

/-- One attempt of the loop body (lines 46-57): compute
`path1 = shortest_path(start, mid)`, `path2 = shortest_path(mid, end)`,
concatenate as `path1 + path2[1:]` and compute the route length.
`NetworkXNoPath` and `KeyError` are caught (skip); `NodeNotFound`
propagates. -/
def attemptOutcome (G : MGraph) (s e mid : Nat) : AttemptRes :=
  match sp G s mid with
  | SPResult.nodeNotFound => AttemptRes.err
  | SPResult.noPath => AttemptRes.skip
  | SPResult.path p1 =>
    match sp G mid e with
    | SPResult.nodeNotFound => AttemptRes.err
    | SPResult.noPath => AttemptRes.skip
    | SPResult.path p2 =>
      match routeLength G (p1 ++ p2.tail) with
      | none => AttemptRes.skip
      | some L => AttemptRes.route (p1 ++ p2.tail) L

/-- The acceptance step (lines 53-55): append the candidate when its length
deviates from the target by at most the tolerance (inclusive `<=`) and it is
not already collected. -/
def acceptUpdate (target tol : ℚ) (routes : List (List Nat)) (r : List Nat) (L : ℚ) :
    List (List Nat) :=
  if |L - target| ≤ tol ∧ r ∉ routes then routes ++ [r] else routes

/-- The sampling loop (lines 42-57), with `fuel = max_attempts - attempts`
remaining attempts and `a` the index of the current attempt into the
sampler `mids`. Each iteration draws `mid = nodes_list[mids a % len]`
(modelling `random.choice`, which raises `IndexError` on an empty list). -/
def genLoop (G : MGraph) (s e : Nat) (target tol : ℚ) (k : Nat) (mids : Nat → Nat) :
    Nat → Nat → List (List Nat) → Except GenErr (List (List Nat))
  | 0, _, routes => Except.ok routes
  | fuel + 1, a, routes =>
    if routes.length < k then
      if G.nodes.isEmpty then Except.error GenErr.indexError
      else
        match attemptOutcome G s e (G.nodes.getD (mids a % G.nodes.length) 0) with
        | AttemptRes.err => Except.error GenErr.nodeNotFound
        | AttemptRes.skip => genLoop G s e target tol k mids fuel (a + 1) routes
        | AttemptRes.route r L =>
          genLoop G s e target tol k mids fuel (a + 1) (acceptUpdate target tol routes r L)
    else Except.ok routes

/-- `generate_alternative_routes(G, start, end, target_distance, tolerance, k)`
from src/streamlit_app_matv1.py lines 36-59, with the random midpoint
choices abstracted into the index function `mids`. -/
def generate_alternative_routes (G : MGraph) (start end_ : Nat) (target_distance tolerance : ℚ)
    (k : Nat) (mids : Nat → Nat) : Except GenErr (List (List Nat)) :=
  genLoop G start end_ target_distance tolerance k mids 1000 0 []

/-! ### Basic lemmas about the embedded operations -/

/-- A `getD` access at an in-bounds index returns an element of the list. -/
lemma getD_mem {l : List Nat} {i d : Nat} (h : i < l.length) : l.getD i d ∈ l := by
  rw [List.getD_eq_getElem?_getD, List.getElem?_eq_getElem h]
  exact List.getElem_mem h

/-- If the loop has already collected at least `k` routes (or the attempt
budget is exhausted), it returns them unchanged. -/
lemma genLoop_done (G : MGraph) (s e : Nat) (t tol : ℚ) (k : Nat) (mids : Nat → Nat)
    (fuel a : Nat) (routes : List (List Nat)) (h : ¬ routes.length < k) :
    genLoop G s e t tol k mids fuel a routes = Except.ok routes := by
  cases fuel with
  | zero => rfl
  | succ f => rw [genLoop, if_neg h]

/-- Every path produced by `pathsAux` starts at the given node. -/
lemma pathsAux_head (G : MGraph) (fuel u : Nat) (visited : List Nat) :
    ∀ p ∈ pathsAux G fuel u visited, p.head? = some u := by
  cases fuel with
  | zero =>
    intro p hp
    simp only [pathsAux, List.mem_singleton] at hp
    subst hp; rfl
  | succ f =>
    intro p hp
    simp only [pathsAux, List.singleton_append, List.mem_cons, List.mem_flatMap,
      List.mem_map] at hp
    rcases hp with rfl | ⟨w, _, q, _, rfl⟩
    · rfl
    · rfl

/-- A left fold that keeps the smaller of two candidates returns the initial
candidate or a member of the list. -/
lemma foldl_pick_mem (w : List Nat → ℚ) :
    ∀ (qs : List (List Nat)) (p : List Nat),
      qs.foldl (fun best q => if w q < w best then q else best) p = p ∨
      qs.foldl (fun best q => if w q < w best then q else best) p ∈ qs := by
  intro qs
  induction qs with
  | nil => intro p; left; rfl
  | cons x xs ih =>
    intro p
    by_cases hw : w x < w p
    · simp only [List.foldl_cons, if_pos hw]
      rcases ih x with h | h
      · right; rw [h]; exact List.mem_cons_self x xs
      · right; exact List.mem_cons_of_mem x h
    · simp only [List.foldl_cons, if_neg hw]
      rcases ih p with h | h
      · left; exact h
      · right; exact List.mem_cons_of_mem x h

/-- `pickMin` returns a member of its candidate list. -/
lemma pickMin_mem {w : List Nat → ℚ} {l : List (List Nat)} {p : List Nat}
    (h : pickMin w l = some p) : p ∈ l := by
  cases l with
  | nil => simp [pickMin] at h
  | cons q qs =>
    simp only [pickMin, Option.some.injEq] at h
    rcases foldl_pick_mem w qs q with h2 | h2
    · rw [h] at h2; rw [h2]; exact List.mem_cons_self q qs
    · rw [h] at h2; exact List.mem_cons_of_mem q h2

/-- A successful `sp` call returns a path drawn from the candidate
enumeration, ending at the requested target. -/
lemma sp_path_elim {G : MGraph} {u v : Nat} {p : List Nat}
    (h : sp G u v = SPResult.path p) :
    p ∈ pathsAux G G.nodes.length u [u] ∧ p.getLast? = some v := by
  unfold sp at h
  split at h
  · split at h
    · exact absurd h (by simp)
    · rename_i p' hpick
      obtain rfl : p' = p := by injection h
      have hmem := pickMin_mem hpick
      rw [List.mem_filter] at hmem
      refine ⟨hmem.1, ?_⟩
      have := hmem.2
      simpa using this
  · exact absurd h (by simp)

/-- A successful `sp G u v` call returns a path starting at `u`. -/
lemma sp_path_head {G : MGraph} {u v : Nat} {p : List Nat}
    (h : sp G u v = SPResult.path p) : p.head? = some u :=
  pathsAux_head G G.nodes.length u [u] p (sp_path_elim h).1

/-- A successful `sp G u v` call returns a path ending at `v`. -/
lemma sp_path_last {G : MGraph} {u v : Nat} {p : List Nat}
    (h : sp G u v = SPResult.path p) : p.getLast? = some v :=
  (sp_path_elim h).2

/-- A path returned by `sp` is nonempty. -/
lemma sp_path_ne_nil {G : MGraph} {u v : Nat} {p : List Nat}
    (h : sp G u v = SPResult.path p) : p ≠ [] := by
  intro hnil
  rw [hnil] at h
  have := sp_path_head h
  simp at this

/-- A successful `routeLength` computation certifies that every consecutive
pair of the route has at least one edge. -/
lemma routeLength_some_pairs {G : MGraph} {r : List Nat} {L : ℚ}
    (h : routeLength G r = some L) :
    ∀ uv ∈ r.zip r.tail, edgesBetween G uv.1 uv.2 ≠ [] := by
  unfold routeLength at h
  split at h
  · rename_i hall
    intro uv huv
    have := List.all_eq_true.mp hall uv huv
    simpa [List.isEmpty_iff] using this
  · exact absurd h (by simp)

/-- Edges on every consecutive pair of `r` give a `Chain'` of adjacency. -/
lemma chain_of_pairs (G : MGraph) :
    ∀ r : List Nat, (∀ uv ∈ r.zip r.tail, edgesBetween G uv.1 uv.2 ≠ []) →
      List.Chain' (adjacentIn G) r := by
  intro r
  induction r with
  | nil => intro _; exact List.chain'_nil
  | cons a t ih =>
    cases t with
    | nil => intro _; simp [List.chain'_singleton]
    | cons b t2 =>
      intro h
      rw [List.chain'_cons]
      constructor
      · exact h (a, b) (by simp [List.zip_cons_cons])
      · exact ih fun uv huv => h uv (by simp [List.zip_cons_cons]; right; exact (by simpa using huv))

/-- Membership after the acceptance step: an element is an old route or the
candidate, and the candidate is only added when it passed the tolerance
check and was new. -/
lemma acceptUpdate_mem {target tol : ℚ} {routes : List (List Nat)} {r q : List Nat} {L : ℚ}
    (h : q ∈ acceptUpdate target tol routes r L) :
    q ∈ routes ∨ (q = r ∧ |L - target| ≤ tol ∧ r ∉ routes) := by
  unfold acceptUpdate at h
  split at h
  · rename_i hcond
    rcases List.mem_append.mp h with h2 | h2
    · exact Or.inl h2
    · exact Or.inr ⟨List.mem_singleton.mp h2, hcond.1, hcond.2⟩
  · exact Or.inl h

/-- The acceptance step preserves duplicate-freedom. -/
lemma acceptUpdate_nodup {target tol : ℚ} {routes : List (List Nat)} {r : List Nat} {L : ℚ}
    (h : routes.Nodup) : (acceptUpdate target tol routes r L).Nodup := by
  unfold acceptUpdate
  split
  · rename_i hcond
    rw [List.nodup_append]
    refine ⟨h, List.nodup_singleton r, ?_⟩
    intro q hq hq2
    rw [List.mem_singleton] at hq2
    exact hcond.2 (hq2 ▸ hq)
  · exact h

/-- The acceptance step grows the collection by at most one. -/
lemma acceptUpdate_length {target tol : ℚ} (routes : List (List Nat)) (r : List Nat) (L : ℚ) :
    (acceptUpdate target tol routes r L).length ≤ routes.length + 1 := by
  unfold acceptUpdate
  split
  · simp
  · exact Nat.le_succ _

/-- A candidate attempt decomposes into two shortest-path calls whose
concatenation (sharing the junction node) is the candidate. -/
lemma attemptOutcome_route_eq {G : MGraph} {s e mid : Nat} {r : List Nat} {L : ℚ}
    (h : attemptOutcome G s e mid = AttemptRes.route r L) :
    ∃ p1 p2, sp G s mid = SPResult.path p1 ∧ sp G mid e = SPResult.path p2 ∧
      r = p1 ++ p2.tail ∧ routeLength G r = some L := by
  unfold attemptOutcome at h
  split at h
  · exact absurd h (by simp)
  · exact absurd h (by simp)
  · rename_i p1 hp1
    split at h
    · exact absurd h (by simp)
    · exact absurd h (by simp)
    · rename_i p2 hp2
      split at h
      · exact absurd h (by simp)
      · rename_i L' hL
        obtain ⟨rfl, rfl⟩ : p1 ++ p2.tail = r ∧ L' = L := by
          constructor <;> injection h
        exact ⟨p1, p2, hp1, hp2, rfl, hL⟩

/-- What it means for a route to have been produced by a sampling attempt
and accepted: it is the concatenation of two successful shortest-path calls
through some midpoint, and its computed length passed the tolerance test. -/
def GoodRoute (G : MGraph) (s e : Nat) (target tol : ℚ) (r : List Nat) : Prop :=
  ∃ mid p1 p2 L, sp G s mid = SPResult.path p1 ∧ sp G mid e = SPResult.path p2 ∧
    r = p1 ++ p2.tail ∧ routeLength G r = some L ∧ |L - target| ≤ tol

/-- Loop invariant: every route in a successful result was already collected
or is an accepted candidate. -/
lemma genLoop_mem_inv (G : MGraph) (s e : Nat) (target tol : ℚ) (k : Nat) (mids : Nat → Nat) :
    ∀ (fuel a : Nat) (routes res : List (List Nat)),
      genLoop G s e target tol k mids fuel a routes = Except.ok res →
      ∀ r ∈ res, r ∈ routes ∨ GoodRoute G s e target tol r := by
  intro fuel
  induction fuel with
  | zero =>
    intro a routes res h r hr
    obtain rfl : routes = res := by simpa [genLoop] using h
    exact Or.inl hr
  | succ f ih =>
    intro a routes res h r hr
    rw [genLoop] at h
    split at h
    · split at h
      · exact absurd h (by simp)
      · split at h
        · exact absurd h (by simp)
        · exact ih (a + 1) routes res h r hr
        · rename_i q L hq
          rcases ih (a + 1) _ res h r hr with h2 | h2
          · rcases acceptUpdate_mem h2 with h3 | h3
            · exact Or.inl h3
            · obtain ⟨p1, p2, hp1, hp2, hqeq, hL⟩ := attemptOutcome_route_eq hq
              exact Or.inr ⟨_, p1, p2, L, hp1, hp2, h3.1 ▸ hqeq, h3.1 ▸ hL, h3.2.1⟩
          · exact Or.inr h2
    · obtain rfl : routes = res := by simpa using h
      exact Or.inl hr

/-- Loop invariant: duplicate-freedom of the collected routes is preserved. -/
lemma genLoop_nodup_inv (G : MGraph) (s e : Nat) (target tol : ℚ) (k : Nat) (mids : Nat → Nat) :
    ∀ (fuel a : Nat) (routes res : List (List Nat)),
      genLoop G s e target tol k mids fuel a routes = Except.ok res →
      routes.Nodup → res.Nodup := by
  intro fuel
  induction fuel with
  | zero =>
    intro a routes res h hnd
    obtain rfl : routes = res := by simpa [genLoop] using h
    exact hnd
  | succ f ih =>
    intro a routes res h hnd
    rw [genLoop] at h
    split at h
    · split at h
      · exact absurd h (by simp)
      · split at h
        · exact absurd h (by simp)
        · exact ih (a + 1) routes res h hnd
        · exact ih (a + 1) _ res h (acceptUpdate_nodup hnd)
    · obtain rfl : routes = res := by simpa using h
      exact hnd

/-- Loop invariant: the collection never grows beyond `k` routes. -/
lemma genLoop_length_inv (G : MGraph) (s e : Nat) (target tol : ℚ) (k : Nat) (mids : Nat → Nat) :
    ∀ (fuel a : Nat) (routes res : List (List Nat)),
      genLoop G s e target tol k mids fuel a routes = Except.ok res →
      routes.length ≤ k → res.length ≤ k := by
  intro fuel
  induction fuel with
  | zero =>
    intro a routes res h hlen
    obtain rfl : routes = res := by simpa [genLoop] using h
    exact hlen
  | succ f ih =>
    intro a routes res h hlen
    rw [genLoop] at h
    split at h
    · rename_i hlt
      split at h
      · exact absurd h (by simp)
      · split at h
        · exact absurd h (by simp)
        · exact ih (a + 1) routes res h hlen
        · refine ih (a + 1) _ res h ?_
          calc (acceptUpdate target tol routes _ _).length ≤ routes.length + 1 :=
                acceptUpdate_length _ _ _
            _ ≤ k := Nat.succ_le_of_lt hlt
    · obtain rfl : routes = res := by simpa using h
      exact hlen

/-- If every attempt is skipped, the loop leaves its collection unchanged. -/
lemma genLoop_all_skip (G : MGraph) (s e : Nat) (target tol : ℚ) (k : Nat) (mids : Nat → Nat)
    (hskip : ∀ a, attemptOutcome G s e (G.nodes.getD (mids a % G.nodes.length) 0) =
      AttemptRes.skip)
    (hne : ¬ G.nodes.isEmpty = true) :
    ∀ (fuel a : Nat) (routes : List (List Nat)),
      genLoop G s e target tol k mids fuel a routes = Except.ok routes := by
  intro fuel
  induction fuel with
  | zero => intro a routes; rfl
  | succ f ih =>
    intro a routes
    rw [genLoop]
    split
    · rw [hskip a]
      exact ih (a + 1) routes
    · rfl

/-- In a graph without edges, a node has no neighbors. -/
lemma neighbors_eq_nil_of_no_edges {G : MGraph} (h : G.edges = []) (u : Nat) :
    neighbors G u = [] := by
  unfold neighbors
  rw [h]
  rfl

/-- In a graph without edges, the only enumerated path from `u` is `[u]`. -/
lemma pathsAux_no_edges {G : MGraph} (h : G.edges = []) :
    ∀ (fuel u : Nat) (visited : List Nat), pathsAux G fuel u visited = [[u]] := by
  intro fuel
  induction fuel with
  | zero => intro u visited; rfl
  | succ f ih =>
    intro u visited
    rw [pathsAux, neighbors_eq_nil_of_no_edges h]
    rfl

/-- In a graph without edges, `sp` between two distinct present nodes finds
no path. -/
lemma sp_no_edges_ne {G : MGraph} {u v : Nat} (h : G.edges = []) (hu : u ∈ G.nodes)
    (hv : v ∈ G.nodes) (huv : u ≠ v) : sp G u v = SPResult.noPath := by
  unfold sp
  rw [if_pos ⟨hu, hv⟩, pathsAux_no_edges h]
  have : ([[u]].filter fun p => p.getLast? == some v) = [] := by
    simp [List.filter, beq_eq_false_iff_ne.mpr huv]
  rw [this]
  rfl

/-- In a graph without edges, `sp` from a present node to itself returns the
one-node path. -/
lemma sp_no_edges_self {G : MGraph} {u : Nat} (h : G.edges = []) (hu : u ∈ G.nodes) :
    sp G u u = SPResult.path [u] := by
  unfold sp
  rw [if_pos ⟨hu, hu⟩, pathsAux_no_edges h]
  have : ([[u]].filter fun p => p.getLast? == some u) = [[u]] := by
    simp [List.filter]
  rw [this]
  rfl

/-- A fold by `min` never exceeds its initial value. -/
lemma foldl_min_le_init (l : List ℚ) : ∀ a : ℚ, l.foldl min a ≤ a := by
  induction l with
  | nil => intro a; exact le_refl a
  | cons b t ih =>
    intro a
    rw [List.foldl_cons]
    exact le_trans (ih (min a b)) (min_le_left a b)

/-- A fold by `min` returns its initial value or a member of the list. -/
lemma foldl_min_mem (l : List ℚ) : ∀ a : ℚ, l.foldl min a = a ∨ l.foldl min a ∈ l := by
  induction l with
  | nil => intro a; exact Or.inl rfl
  | cons b t ih =>
    intro a
    rw [List.foldl_cons]
    rcases ih (min a b) with h | h
    · rcases min_choice a b with h2 | h2
      · exact Or.inl (h.trans h2)
      · exact Or.inr (by rw [h, h2]; exact List.mem_cons_self b t)
    · exact Or.inr (List.mem_cons_of_mem b h)

/-- When the first parallel edge between a pair is also a minimal one, the
key-0 resolution and the minimum resolution agree on that pair. -/
lemma headD_eq_minEdge {G : MGraph} {u v : Nat}
    (hne : edgesBetween G u v ≠ [])
    (hmin : ∀ l ∈ edgesBetween G u v, (edgesBetween G u v).headD 0 ≤ l) :
    (edgesBetween G u v).headD 0 = minEdge G u v := by
  unfold minEdge
  rcases hE : edgesBetween G u v with _ | ⟨l0, ls⟩
  · exact absurd hE hne
  · rw [hE] at hmin
    show (l0 :: ls).headD 0 = ls.foldl min l0
    simp only [List.headD_cons] at hmin ⊢
    refine le_antisymm ?_ (foldl_min_le_init ls l0)
    rcases foldl_min_mem ls l0 with h | h
    · exact le_of_eq h.symm
    · exact hmin _ (List.mem_cons_of_mem l0 h)

/-- The head of a concatenation with a nonempty left part. -/
lemma head_append_left {l1 l2 : List Nat} (h : l1 ≠ []) :
    (l1 ++ l2).head? = l1.head? := by
  cases l1 with
  | nil => exact absurd rfl h
  | cons a t => rfl

/-- The last element of a concatenation with a nonempty right part. -/
lemma getLast_append_right : ∀ (l1 : List Nat) {l2 : List Nat}, l2 ≠ [] →
    (l1 ++ l2).getLast? = l2.getLast? := by
  intro l1
  induction l1 with
  | nil => intro l2 _; rfl
  | cons a t ih =>
    intro l2 h
    rcases hq : t ++ l2 with _ | ⟨c, cs⟩
    · exact absurd (List.append_eq_nil.mp hq).2 h
    · rw [List.cons_append, hq, List.getLast?_cons_cons, ← hq]
      exact ih h

/-- The last element of a path equals the last element of its tail when the
tail is nonempty. -/
lemma getLast_tail {p : List Nat} (h : p.tail ≠ []) : p.tail.getLast? = p.getLast? := by
  cases p with
  | nil => rfl
  | cons a t =>
    cases t with
    | nil => exact absurd rfl h
    | cons b t2 => rw [List.getLast?_cons_cons]; rfl

/-- `nx.shortest_path` raises `NodeNotFound` when the source is absent. -/
lemma sp_nodeNotFound_left {G : MGraph} {u : Nat} (v : Nat) (h : u ∉ G.nodes) :
    sp G u v = SPResult.nodeNotFound := by
  unfold sp
  rw [if_neg]
  exact fun hc => h hc.1

/-- When the start node is absent from the graph, every sampling attempt
propagates `NodeNotFound`. -/
lemma attemptOutcome_err_of_start_missing {G : MGraph} {s : Nat} (e mid : Nat)
    (h : s ∉ G.nodes) : attemptOutcome G s e mid = AttemptRes.err := by
  unfold attemptOutcome
  rw [sp_nodeNotFound_left mid h]

/-- With a missing start node (and a nonempty node list, `k ≥ 1`), the very
first attempt raises `NodeNotFound`, which is not caught. -/
lemma generate_routes_nodeNotFound (G : MGraph) (s e : Nat) (t tol : ℚ) (k : Nat)
    (mids : Nat → Nat) (hs : s ∉ G.nodes) (hne : G.nodes ≠ []) (hk : 1 ≤ k) :
    generate_alternative_routes G s e t tol k mids = Except.error GenErr.nodeNotFound := by
  rw [generate_alternative_routes, show (1000 : Nat) = 999 + 1 from rfl, genLoop]
  rw [if_pos (show ([] : List (List Nat)).length < k from hk)]
  rw [if_neg (by simpa [List.isEmpty_iff] using hne)]
  rw [attemptOutcome_err_of_start_missing _ _ hs]

/-- With an empty node list (`k ≥ 1`), `random.choice` raises `IndexError`
on the first attempt. -/
lemma generate_routes_indexError (G : MGraph) (s e : Nat) (t tol : ℚ) (k : Nat)
    (mids : Nat → Nat) (hnil : G.nodes = []) (hk : 1 ≤ k) :
    generate_alternative_routes G s e t tol k mids = Except.error GenErr.indexError := by
  rw [generate_alternative_routes, show (1000 : Nat) = 999 + 1 from rfl, genLoop]
  rw [if_pos (show ([] : List (List Nat)).length < k from hk), hnil]
  rfl

/-- With no edges and distinct present endpoints, every attempt is skipped
(`NetworkXNoPath`) and the result is the empty list. -/
lemma generate_routes_no_edges (G : MGraph) (s e : Nat) (t tol : ℚ) (k : Nat)
    (mids : Nat → Nat) (hE : G.edges = []) (hs : s ∈ G.nodes) (he : e ∈ G.nodes)
    (hse : s ≠ e) :
    generate_alternative_routes G s e t tol k mids = Except.ok [] := by
  have hnil : G.nodes ≠ [] := List.ne_nil_of_mem hs
  have hne : ¬ G.nodes.isEmpty = true := by simpa [List.isEmpty_iff] using hnil
  rw [generate_alternative_routes]
  refine genLoop_all_skip G s e t tol k mids ?_ hne 1000 0 []
  intro a
  have hmem : G.nodes.getD (mids a % G.nodes.length) 0 ∈ G.nodes :=
    getD_mem (Nat.mod_lt _ (List.length_pos.mpr hnil))
  by_cases hms : G.nodes.getD (mids a % G.nodes.length) 0 = s
  · unfold attemptOutcome
    rw [hms, sp_no_edges_self hE hs, sp_no_edges_ne hE hs he hse]
  · unfold attemptOutcome
    rw [sp_no_edges_ne hE hs hmem (Ne.symm hms)]

/-- When on every consecutive pair of the route the first parallel edge is
minimal (in particular when the graph has no parallel edges), the code's
key-0 length computation agrees with the spec's minimum-edge resolution. -/
lemma routeLength_eq_min_of_head_min (G : MGraph) (r : List Nat)
    (h : ∀ uv ∈ r.zip r.tail, ∀ l ∈ edgesBetween G uv.1 uv.2,
      (edgesBetween G uv.1 uv.2).headD 0 ≤ l) :
    routeLength G r = minRouteLengthSpec G r := by
  unfold routeLength minRouteLengthSpec
  by_cases hc : ((r.zip r.tail).all fun uv => !(edgesBetween G uv.1 uv.2).isEmpty) = true
  · rw [if_pos hc, if_pos hc]
    have hmaps : ((r.zip r.tail).map fun uv => (edgesBetween G uv.1 uv.2).headD 0) =
        (r.zip r.tail).map fun uv => minEdge G uv.1 uv.2 := by
      apply List.map_congr_left
      intro uv huv
      have hne : edgesBetween G uv.1 uv.2 ≠ [] := by
        have := List.all_eq_true.mp hc uv huv
        simpa [List.isEmpty_iff] using this
      exact headD_eq_minEdge hne (h uv huv)
    rw [hmaps]
  · rw [if_neg hc, if_neg hc]

/-! ### Concrete example graphs used by witnesses and counterexamples -/

/-- A graph with no nodes at all. -/
def graphEmpty : MGraph := ⟨[], []⟩

/-- A single isolated node. -/
def graphSolo : MGraph := ⟨[0], []⟩

/-- Two nodes, no edges. -/
def graphTwoIsolated : MGraph := ⟨[0, 1], []⟩

/-- Two nodes joined by a single edge of length 100. -/
def graphEdge : MGraph := ⟨[0, 1], [(0, 1, 100)]⟩

/-- Two nodes joined by two parallel edges: key 0 has length 100, key 1 has
length 50, so the minimum-length parallel edge is the second one. -/
def graphParallel : MGraph := ⟨[0, 1], [(0, 1, 100), (0, 1, 50)]⟩

/-- Concrete run: the degenerate loop is found and returned on the isolated
node (every attempt draws `mid = 0`, `path1 = path2 = [0]`, route `[0]` of
length 0, accepted since `|0 - 50| ≤ 100`). -/
lemma graphSolo_run : generate_alternative_routes graphSolo 0 0 50 100 1 (fun _ => 0) =
    Except.ok [[0]] := by
  rw [generate_alternative_routes, show (1000 : Nat) = 999 + 1 from rfl, genLoop]
  norm_num [attemptOutcome, sp, pathsAux, pickMin, pathWeight, routeLength, acceptUpdate,
    edgesBetween, neighbors, minEdge, graphSolo, genLoop_done, List.getLast?,
    List.filterMap_cons, List.filterMap_nil, List.dedup_cons_of_not_mem, List.dedup_cons_of_mem,
    List.dedup_nil, List.filter_cons, List.filter_nil, List.all_cons, List.zip_cons_cons,
    List.contains_cons, List.foldl_cons, List.foldl_nil]

/-- Concrete run: on the single-edge graph the route `[0, 1]` of length 100
is accepted at target 130 with tolerance 30 (deviation exactly 30, the
inclusive boundary). -/
lemma graphEdge_run : generate_alternative_routes graphEdge 0 1 130 30 1 (fun _ => 1) =
    Except.ok [[0, 1]] := by
  rw [generate_alternative_routes, show (1000 : Nat) = 999 + 1 from rfl, genLoop]
  norm_num [attemptOutcome, sp, pathsAux, pickMin, pathWeight, routeLength, acceptUpdate,
    edgesBetween, neighbors, minEdge, graphEdge, genLoop_done, List.getLast?,
    List.filterMap_cons, List.filterMap_nil, List.dedup_cons_of_not_mem, List.dedup_cons_of_mem,
    List.dedup_nil, List.filter_cons, List.filter_nil, List.all_cons, List.zip_cons_cons,
    List.contains_cons, List.foldl_cons, List.foldl_nil]

/-! ### Nearest-node locator (src/streamlit_app_matv1.py lines 13-31) -/

/-- `math.atan2(y, x)`: the argument of the complex number `x + y i`. -/
noncomputable def atan2 (y x : ℝ) : ℝ := Complex.arg ⟨x, y⟩

/-- The haversine great-circle distance computed inside the node loop of
`nearest_node_manual` (lines 19-27), with Earth radius `R = 6371000` m:
coordinates are converted to radians (`math.radians(x) = x * π / 180`) and
`d = R * 2 * atan2(sqrt a, sqrt (1 - a))`. -/
noncomputable def haversine (lat lon nodeLat nodeLon : ℝ) : ℝ :=
  let R : ℝ := 6371000
  let phi1 := lat * Real.pi / 180
  let phi2 := nodeLat * Real.pi / 180
  let dphi := (nodeLat - lat) * Real.pi / 180
  let dlam := (nodeLon - lon) * Real.pi / 180
  let a := Real.sin (dphi / 2) ^ 2 +
    Real.cos phi1 * Real.cos phi2 * Real.sin (dlam / 2) ^ 2
  let c := 2 * atan2 (Real.sqrt a) (Real.sqrt (1 - a))
  R * c

/-- The node view `G.nodes(data=True)` used by `nearest_node_manual`: each
node identifier with its `y` (latitude) and `x` (longitude) attributes. -/
structure GeoGraph where
  nodes : List (Nat × ℝ × ℝ)

/-- The scanning loop of `nearest_node_manual`: the accumulator holds
`(min_dist, nearest)`; `none` models the initial state
`min_dist = float('inf'), nearest = None`, which any finite distance beats.
The update fires only on a strict decrease (`if d < min_dist`). -/
noncomputable def nnAux (lat lon : ℝ) :
    List (Nat × ℝ × ℝ) → Option (ℝ × Nat) → Option (ℝ × Nat)
  | [], best => best
  | nd :: rest, best =>
    match best with
    | none => nnAux lat lon rest (some (haversine lat lon nd.2.1 nd.2.2, nd.1))
    | some (m, b) =>
      if haversine lat lon nd.2.1 nd.2.2 < m then
        nnAux lat lon rest (some (haversine lat lon nd.2.1 nd.2.2, nd.1))
      else nnAux lat lon rest (some (m, b))

/-- `nearest_node_manual(G, lat, lon)` (lines 13-31): linear scan over all
nodes keeping the strictly closest one so far; `none` models the `None`
returned for a graph without nodes. -/
noncomputable def nearest_node_manual (G : GeoGraph) (lat lon : ℝ) : Option Nat :=
  (nnAux lat lon G.nodes none).map Prod.snd

/-- Invariant of the scan: starting from a finite best `(m, b)`, the scan
returns a pair whose distance is at most `m` and at most every remaining
node's distance, and which is the initial pair or comes from a scanned
node. -/
lemma nnAux_spec (lat lon : ℝ) :
    ∀ (l : List (Nat × ℝ × ℝ)) (m : ℝ) (b : Nat),
      ∃ m2 b2, nnAux lat lon l (some (m, b)) = some (m2, b2) ∧ m2 ≤ m ∧
        (∀ nd ∈ l, m2 ≤ haversine lat lon nd.2.1 nd.2.2) ∧
        ((m2 = m ∧ b2 = b) ∨ ∃ nd ∈ l, b2 = nd.1 ∧ m2 = haversine lat lon nd.2.1 nd.2.2) := by
  intro l
  induction l with
  | nil =>
    intro m b
    exact ⟨m, b, rfl, le_refl m, by simp, Or.inl ⟨rfl, rfl⟩⟩
  | cons nd rest ih =>
    intro m b
    by_cases hd : haversine lat lon nd.2.1 nd.2.2 < m
    · obtain ⟨m2, b2, heq, hle, hall, horig⟩ := ih (haversine lat lon nd.2.1 nd.2.2) nd.1
      refine ⟨m2, b2, ?_, le_of_lt (lt_of_le_of_lt hle hd), ?_, ?_⟩
      · rw [nnAux, if_pos hd]; exact heq
      · intro md hmd
        rcases List.mem_cons.mp hmd with rfl | hmd2
        · exact hle
        · exact hall md hmd2
      · rcases horig with ⟨hm2, hb2⟩ | ⟨nd2, hnd2, hb2, hm2⟩
        · exact Or.inr ⟨nd, List.mem_cons_self nd rest, hb2, hm2⟩
        · exact Or.inr ⟨nd2, List.mem_cons_of_mem nd hnd2, hb2, hm2⟩
    · obtain ⟨m2, b2, heq, hle, hall, horig⟩ := ih m b
      refine ⟨m2, b2, ?_, hle, ?_, ?_⟩
      · rw [nnAux, if_neg hd]; exact heq
      · intro md hmd
        rcases List.mem_cons.mp hmd with rfl | hmd2
        · exact le_trans hle (not_lt.mp hd)
        · exact hall md hmd2
      · rcases horig with ⟨hm2, hb2⟩ | ⟨nd2, hnd2, hb2, hm2⟩
        · exact Or.inl ⟨hm2, hb2⟩
        · exact Or.inr ⟨nd2, List.mem_cons_of_mem nd hnd2, hb2, hm2⟩

/-! ### Comment sentiment labeling (src/streamlit_app.py lines 171-190) -/

/-- The sentiment-labeling loop (lines 174-184). A fetched comment is
modelled by its TextBlob polarity score (the lexicon scoring itself is an
external library); the loop appends one label per comment, except that a
comment with polarity strictly below `-0.05` appends `"Negative"` twice. -/
def sentiment_labels (ps : List ℚ) : List String :=
  ps.flatMap fun p =>
    if p > 0.05 then ["Positive"]
    else if p < -0.05 then ["Negative", "Negative"]
    else ["Neutral"]

/-- Model of the `pd.DataFrame` construction (lines 186-190): pandas raises
`ValueError` unless all column lists have the same length; `none` models
that failure and `some` zips the columns row-wise. -/
def makeDataFrame (comments polarity : List ℚ) (labels : List String) :
    Option (List (ℚ × ℚ × String)) :=
  if comments.length = polarity.length ∧ polarity.length = labels.length then
    some (comments.zip (polarity.zip labels))
  else none

/-! ### Claim theorems -/

/-- Claim C1: every route in a successful result of
`generate_alternative_routes` has a computed total length `L` (the sum of
edge lengths along consecutive pairs, as the code computes it) with
`|L - target_distance| ≤ tolerance`; and the acceptance test has an
inclusive boundary: a new candidate whose deviation equals the tolerance
exactly is appended. -/
theorem generate_routes_tolerance_contract (G : MGraph) (s e : Nat) (t tol : ℚ) (k : Nat)
    (mids : Nat → Nat) (res : List (List Nat))
    (h : generate_alternative_routes G s e t tol k mids = Except.ok res) :
    (∀ r ∈ res, ∃ L, routeLength G r = some L ∧ |L - t| ≤ tol) ∧
    (∀ (routes : List (List Nat)) (r : List Nat) (L : ℚ), |L - t| = tol → r ∉ routes →
      acceptUpdate t tol routes r L = routes ++ [r]) := by
  constructor
  · intro r hr
    rcases genLoop_mem_inv G s e t tol k mids 1000 0 [] res h r hr with h2 | h2
    · simp at h2
    · obtain ⟨mid, p1, p2, L, _, _, _, hL, htol⟩ := h2
      exact ⟨L, hL, htol⟩
  · intro routes r L hb hnr
    unfold acceptUpdate
    rw [if_pos ⟨le_of_eq hb, hnr⟩]

/-- Claim C1 witness: on the single-edge graph, target 130 and tolerance 30
(deviation of the returned route exactly 30), the returned route satisfies
the contract and the boundary candidate is appended. -/
theorem generate_routes_tolerance_contract_witness :
    (∃ L, routeLength graphEdge [0, 1] = some L ∧ |L - 130| ≤ 30) ∧
    acceptUpdate 130 30 [] [0, 1] 100 = [[0, 1]] :=
  ⟨(generate_routes_tolerance_contract graphEdge 0 1 130 30 1 (fun _ => 1) [[0, 1]]
      graphEdge_run).1 [0, 1] (List.mem_singleton.mpr rfl),
   (generate_routes_tolerance_contract graphEdge 0 1 130 30 1 (fun _ => 1) [[0, 1]]
      graphEdge_run).2 [] [0, 1] 100 (by norm_num) (by simp)⟩

/-- Claim C5: every route in a successful result starts at the requested
start node, ends at the requested end node, and every consecutive pair of
its nodes is joined by an edge of the graph. -/
theorem generate_routes_well_formed (G : MGraph) (s e : Nat) (t tol : ℚ) (k : Nat)
    (mids : Nat → Nat) (res : List (List Nat))
    (h : generate_alternative_routes G s e t tol k mids = Except.ok res) :
    ∀ r ∈ res, r.head? = some s ∧ r.getLast? = some e ∧ List.Chain' (adjacentIn G) r := by
  intro r hr
  rcases genLoop_mem_inv G s e t tol k mids 1000 0 [] res h r hr with h2 | h2
  · simp at h2
  · obtain ⟨mid, p1, p2, L, hp1, hp2, rfl, hL, _⟩ := h2
    have h1ne := sp_path_ne_nil hp1
    have h2ne := sp_path_ne_nil hp2
    refine ⟨?_, ?_, ?_⟩
    · rw [head_append_left h1ne]
      exact sp_path_head hp1
    · by_cases ht : p2.tail = []
      · rw [ht, List.append_nil]
        have hlast1 := sp_path_last hp1
        have hhead2 := sp_path_head hp2
        have hlast2 := sp_path_last hp2
        cases p2 with
        | nil => exact absurd rfl h2ne
        | cons x t2 =>
          obtain rfl : t2 = [] := ht
          have hx1 : x = mid := by simpa using hhead2
          have hx2 : x = e := by simpa using hlast2
          rw [hlast1, ← hx1, hx2]
      · rw [getLast_append_right p1 ht, getLast_tail ht]
        exact sp_path_last hp2
    · exact chain_of_pairs G _ (routeLength_some_pairs hL)

/-- Claim C5 witness: the route returned on the single-edge graph starts at
node 0, ends at node 1, and consecutive nodes are adjacent. -/
theorem generate_routes_well_formed_witness :
    ([0, 1] : List Nat).head? = some 0 ∧ ([0, 1] : List Nat).getLast? = some 1 ∧
    List.Chain' (adjacentIn graphEdge) [0, 1] :=
  generate_routes_well_formed graphEdge 0 1 130 30 1 (fun _ => 1) [[0, 1]] graphEdge_run
    [0, 1] (List.mem_singleton.mpr rfl)

/-- Claim C6: no two elements of a successful result are identical node
sequences (the returned list is duplicate-free under full sequence
equality). -/
theorem generate_routes_unique (G : MGraph) (s e : Nat) (t tol : ℚ) (k : Nat)
    (mids : Nat → Nat) (res : List (List Nat))
    (h : generate_alternative_routes G s e t tol k mids = Except.ok res) :
    res.Nodup :=
  genLoop_nodup_inv G s e t tol k mids 1000 0 [] res h List.nodup_nil

/-- Claim C6 witness: the concrete result on the single-edge graph is
duplicate-free. -/
theorem generate_routes_unique_witness : ([[0, 1]] : List (List Nat)).Nodup :=
  generate_routes_unique graphEdge 0 1 130 30 1 (fun _ => 1) [[0, 1]] graphEdge_run

/-- Claim C7: the search is the fuelled loop with an attempt budget of
exactly 1000; it stops as soon as `k` routes are collected (returning them
unchanged), and an exhausted budget returns whatever has been collected. -/
theorem generate_routes_attempt_budget (G : MGraph) (s e : Nat) (t tol : ℚ) (k : Nat)
    (mids : Nat → Nat) :
    generate_alternative_routes G s e t tol k mids = genLoop G s e t tol k mids 1000 0 [] ∧
    (∀ (fuel a : Nat) (routes : List (List Nat)), k ≤ routes.length →
      genLoop G s e t tol k mids fuel a routes = Except.ok routes) ∧
    (∀ (a : Nat) (routes : List (List Nat)),
      genLoop G s e t tol k mids 0 a routes = Except.ok routes) :=
  ⟨rfl,
   fun fuel a routes hk2 => genLoop_done G s e t tol k mids fuel a routes (Nat.not_lt.mpr hk2),
   fun _ _ => rfl⟩

/-- Claim C7 witness: with one route already collected and `k = 1`, the
loop stops immediately and returns it, for any remaining budget. -/
theorem generate_routes_attempt_budget_witness :
    genLoop graphEdge 0 1 130 30 1 (fun _ => 1) 5 0 [[0, 1]] = Except.ok [[0, 1]] :=
  (generate_routes_attempt_budget graphEdge 0 1 130 30 1 (fun _ => 1)).2.1 5 0 [[0, 1]]
    (by simp)

/-- Claim C8: a successful result never contains more than `k` routes. -/
theorem generate_routes_cardinality_bound (G : MGraph) (s e : Nat) (t tol : ℚ) (k : Nat)
    (mids : Nat → Nat) (res : List (List Nat)) (_hk : 1 ≤ k)
    (h : generate_alternative_routes G s e t tol k mids = Except.ok res) :
    res.length ≤ k :=
  genLoop_length_inv G s e t tol k mids 1000 0 [] res h (by simp)

/-- Claim C8 witness: the concrete run with `k = 1` returns one route. -/
theorem generate_routes_cardinality_bound_witness : ([[0, 1]] : List (List Nat)).length ≤ 1 :=
  generate_routes_cardinality_bound graphEdge 0 1 130 30 1 (fun _ => 1) [[0, 1]]
    (le_refl 1) graphEdge_run

/-- Claim C4 counterexample: on a single isolated node with `start = end`,
`target_distance = 30 > 0` and `tolerance = 40 ≥ tolerance boundary`, the
code returns the degenerate zero-length loop `[0]`, a node sequence of
length 1 < 2. -/
theorem generate_routes_degenerate_loop_cex :
    generate_alternative_routes graphSolo 0 0 30 40 1 (fun _ => 0) = Except.ok [[0]] ∧
    ¬ 2 ≤ ([0] : List Nat).length := by
  constructor
  · rw [generate_alternative_routes, show (1000 : Nat) = 999 + 1 from rfl, genLoop]
    norm_num [attemptOutcome, sp, pathsAux, pickMin, pathWeight, routeLength, acceptUpdate,
      edgesBetween, neighbors, minEdge, graphSolo, genLoop_done, List.getLast?,
      List.filterMap_cons, List.filterMap_nil, List.dedup_cons_of_not_mem,
      List.dedup_cons_of_mem, List.dedup_nil, List.filter_cons, List.filter_nil,
      List.all_cons, List.zip_cons_cons, List.contains_cons, List.foldl_cons, List.foldl_nil]
  · simp

/-- Claim C4 amended: every returned route is a nonempty node sequence, and
the only way a returned route can have length 1 is the degenerate loop
`[start]` with `start = end`, which is returned exactly when its length 0
passes the tolerance test (`|0 - target| ≤ tolerance`); routes of length
at least 2 are not guaranteed when `tolerance ≥ target_distance`. -/
theorem generate_routes_route_shape (G : MGraph) (s e : Nat) (t tol : ℚ) (k : Nat)
    (mids : Nat → Nat) (res : List (List Nat))
    (h : generate_alternative_routes G s e t tol k mids = Except.ok res) :
    ∀ r ∈ res, r ≠ [] ∧ (r.length = 1 → r = [s] ∧ s = e ∧ |0 - t| ≤ tol) := by
  intro r hr
  rcases genLoop_mem_inv G s e t tol k mids 1000 0 [] res h r hr with h2 | h2
  · simp at h2
  · obtain ⟨mid, p1, p2, L, hp1, hp2, rfl, hL, htol⟩ := h2
    have h1ne := sp_path_ne_nil hp1
    have h2ne := sp_path_ne_nil hp2
    constructor
    · intro hnil
      exact h1ne (List.append_eq_nil.mp hnil).1
    · intro hlen1
      have hlen : p1.length + p2.tail.length = 1 := by
        simpa [List.length_append] using hlen1
      have hp1pos : 0 < p1.length := List.length_pos.mpr h1ne
      have ht2 : p2.tail.length = 0 := by omega
      have ht2nil : p2.tail = [] := List.length_eq_zero.mp ht2
      rcases p1 with _ | ⟨x, t1⟩
      · exact absurd rfl h1ne
      · have ht1 : t1 = [] := by
          have h3 : t1.length = 0 := by
            simp only [List.length_cons] at hlen
            omega
          exact List.length_eq_zero.mp h3
        subst ht1
        have hx : x = s := by simpa using sp_path_head hp1
        have hxmid : x = mid := by simpa using sp_path_last hp1
        rcases p2 with _ | ⟨y, t2⟩
        · exact absurd rfl h2ne
        · have ht2b : t2 = [] := by simpa using ht2nil
          subst ht2b
          have hy1 : y = mid := by simpa using sp_path_head hp2
          have hy2 : y = e := by simpa using sp_path_last hp2
          refine ⟨by simp [hx], ?_, ?_⟩
          · rw [← hx, hxmid, ← hy1]
            exact hy2
          · have hL0 : routeLength G ([x] ++ ([y] : List Nat).tail) = some 0 := rfl
            rw [hL0] at hL
            obtain rfl : (0 : ℚ) = L := by injection hL
            exact htol

/-- Claim C4 amended witness: the degenerate loop returned on the isolated
node is nonempty, and being of length 1 it is `[start]` with
`start = end` and `|0 - 50| ≤ 100`. -/
theorem generate_routes_route_shape_witness :
    ([0] : List Nat) ≠ [] ∧
    (([0] : List Nat).length = 1 → ([0] : List Nat) = [0] ∧ (0 : Nat) = 0 ∧
      |(0 : ℚ) - 50| ≤ 100) :=
  generate_routes_route_shape graphSolo 0 0 50 100 1 (fun _ => 0) [[0]] graphSolo_run
    [0] (List.mem_singleton.mpr rfl)

/-- Claim C2 counterexample: with start node 5 absent from the single-node
graph the call propagates `NodeNotFound` instead of returning an empty
sequence; and on a zero-edge graph with `start = end = 0`,
`target_distance = 50`, `tolerance = 100`, it returns the non-empty result
`[[0]]` instead of an empty sequence. -/
theorem generate_routes_precondition_cex :
    generate_alternative_routes graphSolo 5 0 50 100 1 (fun _ => 0) =
      Except.error GenErr.nodeNotFound ∧
    generate_alternative_routes graphSolo 0 0 50 100 1 (fun _ => 0) = Except.ok [[0]] :=
  ⟨generate_routes_nodeNotFound graphSolo 5 0 50 100 1 (fun _ => 0) (by decide) (by decide)
      (le_refl 1),
   graphSolo_run⟩

/-- Claim C2 amended: on a graph with no nodes the call raises `IndexError`
(from `random.choice` on an empty list); with a start node absent from a
nonempty graph it raises networkx's `NodeNotFound`, which the
`except (nx.NetworkXNoPath, KeyError)` clause does not catch; a zero-edge
graph yields the empty result only when `start ≠ end` (with `start = end`
the degenerate loop can be returned, see the counterexample). -/
theorem generate_routes_precondition_behavior (G : MGraph) (s e : Nat) (t tol : ℚ) (k : Nat)
    (mids : Nat → Nat) :
    (G.nodes = [] → 1 ≤ k →
      generate_alternative_routes G s e t tol k mids = Except.error GenErr.indexError) ∧
    (s ∉ G.nodes → G.nodes ≠ [] → 1 ≤ k →
      generate_alternative_routes G s e t tol k mids = Except.error GenErr.nodeNotFound) ∧
    (G.edges = [] → s ∈ G.nodes → e ∈ G.nodes → s ≠ e →
      generate_alternative_routes G s e t tol k mids = Except.ok []) :=
  ⟨fun hnil hk => generate_routes_indexError G s e t tol k mids hnil hk,
   fun hs hne hk => generate_routes_nodeNotFound G s e t tol k mids hs hne hk,
   fun hE hs he hse => generate_routes_no_edges G s e t tol k mids hE hs he hse⟩

/-- Claim C2 amended witness: the three behaviors at concrete inputs. -/
theorem generate_routes_precondition_behavior_witness :
    generate_alternative_routes graphEmpty 0 0 50 100 1 (fun _ => 0) =
      Except.error GenErr.indexError ∧
    generate_alternative_routes graphSolo 7 0 50 100 1 (fun _ => 0) =
      Except.error GenErr.nodeNotFound ∧
    generate_alternative_routes graphTwoIsolated 0 1 50 100 1 (fun _ => 0) =
      Except.ok [] :=
  ⟨(generate_routes_precondition_behavior graphEmpty 0 0 50 100 1 (fun _ => 0)).1 rfl
      (le_refl 1),
   (generate_routes_precondition_behavior graphSolo 7 0 50 100 1 (fun _ => 0)).2.1
      (by decide) (by decide) (le_refl 1),
   (generate_routes_precondition_behavior graphTwoIsolated 0 1 50 100 1 (fun _ => 0)).2.2
      rfl (by decide) (by decide) (by decide)⟩

/-- Claim C3 counterexample: on the graph with parallel edges of lengths
100 (key 0) and 50 (key 1), the code accepts `[0, 1]` at target 100 with
tolerance 0 because line 51 computes the key-0 length 100, while the
minimum-edge resolution of the same route is 50 (deviation 50 > 0). -/
theorem route_length_parallel_edges_cex :
    generate_alternative_routes graphParallel 0 1 100 0 1 (fun _ => 1) = Except.ok [[0, 1]] ∧
    routeLength graphParallel [0, 1] = some 100 ∧
    minRouteLengthSpec graphParallel [0, 1] = some 50 := by
  refine ⟨?_, ?_, ?_⟩
  · rw [generate_alternative_routes, show (1000 : Nat) = 999 + 1 from rfl, genLoop]
    norm_num [attemptOutcome, sp, pathsAux, pickMin, pathWeight, routeLength, acceptUpdate,
      edgesBetween, neighbors, minEdge, graphParallel, genLoop_done, List.getLast?,
      List.filterMap_cons, List.filterMap_nil, List.dedup_cons_of_not_mem,
      List.dedup_cons_of_mem, List.dedup_nil, List.filter_cons, List.filter_nil,
      List.all_cons, List.zip_cons_cons, List.contains_cons, List.foldl_cons, List.foldl_nil]
  · norm_num [routeLength, edgesBetween, graphParallel, List.filterMap_cons,
      List.filterMap_nil, List.all_cons, List.zip_cons_cons]
  · norm_num [minRouteLengthSpec, minEdge, edgesBetween, graphParallel, List.filterMap_cons,
      List.filterMap_nil, List.all_cons, List.zip_cons_cons, List.foldl_cons, List.foldl_nil]

/-- Claim C3 amended: the total length computed for a candidate route
resolves each consecutive pair to the parallel edge with key 0 (the first
edge in insertion order), not the minimum; it coincides with the spec's
minimum-edge resolution exactly on routes where the first parallel edge of
every consecutive pair is minimal — in particular whenever the graph has no
parallel edges. -/
theorem route_length_key0_resolution (G : MGraph) (r : List Nat)
    (h : ∀ uv ∈ r.zip r.tail, ∀ l ∈ edgesBetween G uv.1 uv.2,
      (edgesBetween G uv.1 uv.2).headD 0 ≤ l) :
    routeLength G r = minRouteLengthSpec G r :=
  routeLength_eq_min_of_head_min G r h

/-- Claim C3 amended witness: on the parallel-edge-free single-edge graph
the two resolutions agree on the route `[0, 1]`. -/
theorem route_length_key0_resolution_witness :
    routeLength graphEdge [0, 1] = minRouteLengthSpec graphEdge [0, 1] :=
  route_length_key0_resolution graphEdge [0, 1] (by
    norm_num [edgesBetween, graphEdge, List.zip_cons_cons, List.filterMap_cons,
      List.filterMap_nil])

/-- Claim C9: `nearest_node_manual` returns `None` on a graph without
nodes (never raising), and otherwise returns a node of the graph whose
haversine distance (Earth radius 6371000 m) to the query point is minimal
over all nodes. -/
theorem nearest_node_spec (G : GeoGraph) (lat lon : ℝ) :
    (G.nodes = [] → nearest_node_manual G lat lon = none) ∧
    (G.nodes ≠ [] → ∃ nd ∈ G.nodes, nearest_node_manual G lat lon = some nd.1 ∧
      ∀ md ∈ G.nodes, haversine lat lon nd.2.1 nd.2.2 ≤ haversine lat lon md.2.1 md.2.2) := by
  constructor
  · intro h
    unfold nearest_node_manual
    rw [h]
    rfl
  · intro h
    rcases hN : G.nodes with _ | ⟨nd0, rest⟩
    · exact absurd hN h
    · obtain ⟨m2, b2, heq, hle, hall, horig⟩ :=
        nnAux_spec lat lon rest (haversine lat lon nd0.2.1 nd0.2.2) nd0.1
      have hrun : nearest_node_manual G lat lon = some b2 := by
        unfold nearest_node_manual
        rw [hN]
        show (nnAux lat lon rest
          (some (haversine lat lon nd0.2.1 nd0.2.2, nd0.1))).map Prod.snd = some b2
        rw [heq]
        rfl
      rcases horig with ⟨hm2, hb2⟩ | ⟨nd2, hnd2, hb2, hm2⟩
      · refine ⟨nd0, List.mem_cons_self nd0 rest, by rw [hrun, hb2], ?_⟩
        intro md hmd
        rcases List.mem_cons.mp hmd with rfl | hmd2
        · exact le_refl _
        · have h6 := hall md hmd2
          rw [hm2] at h6
          exact h6
      · refine ⟨nd2, List.mem_cons_of_mem nd0 hnd2, by rw [hrun, hb2], ?_⟩
        intro md hmd
        rcases List.mem_cons.mp hmd with rfl | hmd2
        · rw [← hm2]
          exact hle
        · rw [← hm2]
          exact hall md hmd2

/-- A one-node geographic graph: node 5 at latitude 1, longitude 2. -/
def geoExample : GeoGraph := ⟨[(5, 1, 2)]⟩

/-- Claim C9 witness: the empty graph yields `None`; a one-node graph
yields that node, minimal among all nodes. -/
theorem nearest_node_spec_witness :
    nearest_node_manual ⟨[]⟩ 0 0 = none ∧
    ∃ nd ∈ geoExample.nodes, nearest_node_manual geoExample 0 0 = some nd.1 ∧
      ∀ md ∈ geoExample.nodes,
        haversine 0 0 nd.2.1 nd.2.2 ≤ haversine 0 0 md.2.1 md.2.2 :=
  ⟨(nearest_node_spec ⟨[]⟩ 0 0).1 rfl,
   (nearest_node_spec geoExample 0 0).2 (by simp [geoExample])⟩

/-- Claim C10: the labeling loop produces `n + m` labels for `n` comments
of which `m` have polarity strictly below `-0.05` (the `"Negative"` label
is appended twice for those), so the DataFrame construction pairing
comments, polarity scores and labels fails (ValueError, modelled as `none`)
exactly when at least one comment is negative. -/
theorem sentiment_label_mismatch (ps : List ℚ) :
    (sentiment_labels ps).length =
      ps.length + ps.countP (fun p => decide (p < -0.05)) ∧
    (makeDataFrame ps ps (sentiment_labels ps) = none ↔ ∃ p ∈ ps, p < -0.05) := by
  have hlen : (sentiment_labels ps).length =
      ps.length + ps.countP (fun p => decide (p < -0.05)) := by
    induction ps with
    | nil => rfl
    | cons p t ih =>
      by_cases h1 : p > 0.05
      · have h2 : ¬ p < -0.05 := by linarith
        simp [sentiment_labels, List.countP_cons, h1, h2] at ih ⊢
        omega
      · by_cases h3 : p < -0.05
        · simp [sentiment_labels, List.countP_cons, h1, h3] at ih ⊢
          omega
        · simp [sentiment_labels, List.countP_cons, h1, h3] at ih ⊢
          omega
  refine ⟨hlen, ?_⟩
  have hiff : makeDataFrame ps ps (sentiment_labels ps) = none ↔
      ps.countP (fun p => decide (p < -0.05)) ≠ 0 := by
    unfold makeDataFrame
    split
    · rename_i hcond
      constructor
      · intro hs
        exact absurd hs (by simp)
      · intro hcnt
        exfalso
        apply hcnt
        have h4 := hcond.2
        rw [hlen] at h4
        omega
    · rename_i hcond
      constructor
      · intro _ hcnt
        apply hcond
        refine ⟨rfl, ?_⟩
        rw [hlen, hcnt]
        omega
      · intro _
        rfl

  rw [hiff]
  constructor
  · intro hne
    have h5 := List.countP_pos_iff.mp (Nat.pos_of_ne_zero hne)
    simpa using h5
  · intro hex
    have h5 : 0 < ps.countP fun p => decide (p < -0.05) :=
      List.countP_pos_iff.mpr (by simpa using hex)
    omega

/-- Claim C10 witness: a single negative comment (polarity -1) yields two
labels and a failing DataFrame construction. -/
theorem sentiment_label_mismatch_witness :
    (sentiment_labels [(-1 : ℚ)]).length = 2 ∧
    makeDataFrame [(-1 : ℚ)] [(-1 : ℚ)] (sentiment_labels [(-1 : ℚ)]) = none := by
  have hd : ((-1 : ℚ) < -0.05) := by norm_num
  constructor
  · rw [(sentiment_label_mismatch [(-1 : ℚ)]).1]
    simp [List.countP_cons, hd]
  · exact (sentiment_label_mismatch [(-1 : ℚ)]).2.mpr ⟨-1, List.mem_singleton.mpr rfl, hd⟩
